/-
Verification of the unscramble word-game service (game-api/app.py).

The source is shallowly embedded: pure Python helpers become Lean
functions; the in-memory session dict becomes an explicit map
`Sessions := String → Option GameState` threaded through the handlers;
randomness (random.choice / random.shuffle) and the LLM collaborator
become explicit parameters (choice indices, an outcome list, a shuffle
function), so each handler is a deterministic function of those inputs.
Floating-point zipf frequencies are modelled as rationals: the code only
ever compares them to a threshold. Python str operations are modelled at
the character-list level over ASCII (`pyLower`, `pyStrip`, `pyIsAlpha`,
`pyStrLe`); Python's stable `sorted` is modelled by `List.insertionSort`,
which agrees with it on any list for a total order.
-/
import Mathlib

namespace Unscramble

/-- `SEED_LEN = 5`: words are exactly 5 letters (app.py line 15). -/
def SEED_LEN : Nat := 5

/-- Python `c.isalpha()` for a single ASCII character, stated on code
points (equivalent to `Char.isAlpha`). -/
def alphaChar (c : Char) : Bool :=
  (65 ≤ c.toNat && c.toNat ≤ 90) || (97 ≤ c.toNat && c.toNat ≤ 122)

/-- Python `w.isalpha()`: non-empty and every character alphabetic. -/
def pyIsAlpha (w : String) : Bool := !w.data.isEmpty && w.data.all alphaChar

/-- Python `s.lower()`: lowercase every character (character-list form of
`String.toLower`, kept structural). -/
def pyLower (s : String) : String := ⟨s.data.map Char.toLower⟩

/-- Drop leading whitespace characters. -/
def dropLeadingWs : List Char → List Char
  | [] => []
  | c :: cs => if c.isWhitespace then dropLeadingWs cs else c :: cs

/-- Python `s.strip()`: drop leading and trailing whitespace. -/
def pyStrip (s : String) : String :=
  ⟨((dropLeadingWs ((dropLeadingWs s.data).reverse)).reverse)⟩

/-- Python `<` on strings: lexicographic comparison of the character
lists by code point. -/
def charListLt : List Char → List Char → Bool
  | _, [] => false
  | [], _ :: _ => true
  | a :: as, b :: bs => if a < b then true else if b < a then false else charListLt as bs

/-- Python `<=` on strings, as used by `sorted` on lists of words. -/
def pyStrLe (a b : String) : Bool := !(charListLt b.data a.data)

/-- The ordering relation `sorted` uses on words, in `Prop` form. -/
def strLeProp (a b : String) : Prop := pyStrLe a b = true

instance : DecidableRel strLeProp := fun a b => instDecidableEqBool (pyStrLe a b) true

/-- `signature(w) = "".join(sorted(w))` (app.py lines 20-21): the word's
characters in ascending code-point order. -/
def signature (w : String) : String := ⟨List.insertionSort (· ≤ ·) w.data⟩

/-- `build_five_index` (app.py lines 23-31). `raw` stands for
`top_n_list("en", limit_vocab)` and `zipf` for `zipf_frequency(·, "en")`,
both external collaborators. Returns the qualifying five-letter word list
and the signature→bucket index; a missing key yields `[]`, matching
`idx.get(letters_sorted, [])` in `five_letter_anagrams`. Each Python
bucket is built in insertion order and then replaced by
`sorted(list(set(bucket)))`, which equals the sorted deduplication of the
qualifying words having that signature. -/
def build_five_index (raw : List String) (zipf : String → ℚ) (min_zipf : ℚ) :
    List String × (String → List String) :=
  let words := (raw.filter pyIsAlpha).map pyLower
  let five := words.filter fun w => decide (w.length = SEED_LEN) && decide (min_zipf ≤ zipf w)
  (five, fun k => List.insertionSort strLeProp (five.filter fun w => decide (signature w = k)).dedup)

/-- `five_letter_anagrams` (app.py lines 35-36): bucket lookup with `[]` default. -/
def five_letter_anagrams (idx : String → List String) (letters_sorted : String) : List String :=
  idx letters_sorted

/-- `GameState` (app.py lines 44-50). -/
structure GameState where
  topic : String
  letters : String
  scrambled : String
  targets : List String
  found : List String
deriving DecidableEq

/-- The `SESSIONS` dict (app.py line 52), as a partial map. -/
def Sessions : Type := String → Option GameState

/-- `SESSIONS[sid] = gs`: dict update. -/
def setSession (s : Sessions) (sid : String) (gs : GameState) : Sessions :=
  fun k => if k = sid then some gs else s k

/-- A JSON value as it can arrive in the `guess` field of the request
body; `missing` is an absent key, for which `data.get("guess", "")`
substitutes `""`. -/
inductive JsonVal where
  | missing
  | null
  | str (s : String)
  | num (n : Int)
  | boolean (b : Bool)
deriving DecidableEq

/-- Python `str(data.get("guess", ""))`: coerce the JSON value of the
guess field to a string the way Python `str` renders it. -/
def pyStr : JsonVal → String
  | .missing => ""
  | .null => "None"
  | .str s => s
  | .num n => toString n
  | .boolean b => if b then "True" else "False"

/-- An HTTP handler outcome: a 200 payload or an error status and
message (the code only produces `400 {"error": "invalid session"}`). -/
inductive Api (α : Type) where
  | ok (resp : α)
  | err (status : Nat) (msg : String)
deriving DecidableEq

/-- The JSON body returned by the guess endpoint (app.py lines 311-316). -/
structure GuessResp where
  correct : Bool
  found : List String
  remaining : Int
  complete : Bool
deriving DecidableEq

/-- Python's `not sid` for the session id: `None` (missing key) and the
empty string are falsy. -/
def pyFalsy : Option String → Bool
  | none => true
  | some s => s.data.isEmpty

/-- The `POST /api/game/guess` handler (app.py lines 298-316). The raw
guess is coerced with `str`, lowercased, then stripped; an unknown or
falsy session id yields the 400 error; otherwise the guess is correct
iff it has length 5, is one of the session's targets and has the
session's letters as signature, and a correct, not-yet-found guess is
appended to `found` (an in-place mutation, modelled by writing the
updated state back at the same key). -/
def guess (s : Sessions) (sid : Option String) (rawGuess : JsonVal) :
    Sessions × Api GuessResp :=
  let g := pyStrip (pyLower (pyStr rawGuess))
  match sid with
  | none => (s, .err 400 "invalid session")
  | some sidv =>
    if sidv.data.isEmpty then (s, .err 400 "invalid session")
    else
      match s sidv with
      | none => (s, .err 400 "invalid session")
      | some gs =>
        let ok := decide (g.length = SEED_LEN) && decide (g ∈ gs.targets)
                  && decide (signature g = gs.letters)
        if ok && !(decide (g ∈ gs.found)) then
          let gs2 := { gs with found := gs.found ++ [g] }
          (setSession s sidv gs2,
           .ok ⟨ok, gs2.found, (gs.targets.length : Int) - (gs2.found.length : Int),
                decide (gs2.found.length = gs.targets.length)⟩)
        else
          (s, .ok ⟨ok, gs.found, (gs.targets.length : Int) - (gs.found.length : Int),
                   decide (gs.found.length = gs.targets.length)⟩)

/-- The JSON body returned by the state endpoint (app.py lines 324-330). -/
structure StateResp where
  topic : String
  scrambled : String
  letters : String
  found : List String
  total : Nat
deriving DecidableEq

/-- The `GET /api/game/state` handler (app.py lines 318-330); a missing
`session_id` query parameter arrives as `""`. -/
def state (s : Sessions) (sid : String) : Sessions × Api StateResp :=
  match s sid with
  | none => (s, .err 400 "invalid session")
  | some gs => (s, .ok ⟨gs.topic, gs.scrambled, gs.letters, gs.found, gs.targets.length⟩)

/-- The outcome of one iteration of the LLM retry loop in
`ask_tinyllama_topic_and_word` (app.py lines 69-85): `.failure` is a
collaborator error or a parse exception; `.parsed` carries the two JSON
fields as raw strings, before the code strips/lowercases them. -/
inductive LLMAttempt where
  | failure
  | parsed (topic word : String)
deriving DecidableEq

/-- The fixed category pool of `_fallback_topic_word` (app.py line 56). -/
def TOPIC_POOL : List String := ["animals", "music", "space", "sports", "food"]

/-- `_fallback_topic_word` (app.py lines 55-58); `ti` and `wi` model the
two `random.choice` draws as arbitrary indices. -/
def fallback_topic_word (fiveWords : List String) (ti wi : Nat) : String × String :=
  let topic := TOPIC_POOL.getD (ti % TOPIC_POOL.length) "animals"
  if fiveWords.isEmpty then (topic, "tiger")
  else (topic, fiveWords.getD (wi % fiveWords.length) "tiger")

/-- The retry loop body of `ask_tinyllama_topic_and_word` (app.py lines
69-85): skip failed attempts, strip the topic, strip-then-lowercase the
word, and accept the first word that is alphabetic, of length 5 and
frequent enough. -/
def firstValidAttempt (zipf : String → ℚ) (min_zipf : ℚ) :
    List LLMAttempt → Option (String × String)
  | [] => none
  | .failure :: rest => firstValidAttempt zipf min_zipf rest
  | .parsed t w :: rest =>
    let topic := pyStrip t
    let word := pyLower (pyStrip w)
    if pyIsAlpha word && decide (word.length = SEED_LEN) && decide (min_zipf ≤ zipf word)
    then some (topic, word)
    else firstValidAttempt zipf min_zipf rest

/-- `ask_tinyllama_topic_and_word` (app.py lines 60-87): `disable_llm`
models `DISABLE_LLM=1`; `attempts` lists the outcomes of the collaborator
calls, of which the `for _ in range(3)` loop consumes at most 3. -/
def ask_tinyllama_topic_and_word (disable_llm : Bool) (fiveWords : List String)
    (zipf : String → ℚ) (min_zipf : ℚ) (attempts : List LLMAttempt) (ti wi : Nat) :
    String × String :=
  if disable_llm || fiveWords.isEmpty then fallback_topic_word fiveWords ti wi
  else
    match firstValidAttempt zipf min_zipf (attempts.take 3) with
    | some p => p
    | none => fallback_topic_word fiveWords ti wi

/-- Normalization applied to the raw guess: `str(·).lower().strip()`
(app.py line 302). -/
def normGuess (v : JsonVal) : String := pyStrip (pyLower (pyStr v))

/-- The correctness test of the guess handler (app.py line 307), as the
Bool the code computes. -/
def guessOk (gs : GameState) (g : String) : Bool :=
  decide (g.length = SEED_LEN) && decide (g ∈ gs.targets) && decide (signature g = gs.letters)

/-- A concrete session state matching the spec's worked scenario
(letters "aerst", four targets, nothing found yet). -/
def demoState : GameState :=
  ⟨"animals", "aerst", "tsrea", ["aster", "rates", "stare", "tears"], []⟩

/-- `demoState` after "rates" has been found. -/
def demoStateAfter : GameState :=
  ⟨"animals", "aerst", "tsrea", ["aster", "rates", "stare", "tears"], ["rates"]⟩

/-- A concrete session store holding `demoState` under "sid1". -/
def demoSessions : Sessions :=
  fun k => if k = "sid1" then some demoState else none

/-- The JSON body returned by the new-game endpoint (app.py lines 290-296). -/
structure NewGameResp where
  session_id : String
  topic : String
  scrambled : String
  letters : String
  answer_count : Nat
deriving DecidableEq

/-- The `POST /api/game/new` handler (app.py lines 268-296). The three
possible `_fallback_topic_word` invocations get independent choice
indices; `shuffle` models the `random.shuffle` inside `scramble` (app.py
lines 38-41); `sid` models `uuid.uuid4().hex`. The `try/except` around
the picker is dead in the model (the picker is a total function), and
the module-level `FIVE_WORDS`/`ANAGRAM5_INDEX` are the two components of
`build_five_index raw zipf min_zipf`. -/
def new_game (raw : List String) (zipf : String → ℚ) (min_zipf : ℚ)
    (disable_llm : Bool) (attempts : List LLMAttempt)
    (t1 w1 t2 w2 t3 w3 : Nat) (shuffle : String → String)
    (sid : String) (s : Sessions) : Sessions × NewGameResp :=
  let five := (build_five_index raw zipf min_zipf).1
  let idx := (build_five_index raw zipf min_zipf).2
  let p0 := ask_tinyllama_topic_and_word disable_llm five zipf min_zipf attempts t1 w1
  let p := if p0.2.length ≠ SEED_LEN then fallback_topic_word five t2 w2 else p0
  let letters0 := signature p.2
  let targets0 := five_letter_anagrams idx letters0
  let q :=
    if targets0.isEmpty then
      let p2 := fallback_topic_word five t3 w3
      (p2.1, signature p2.2, five_letter_anagrams idx (signature p2.2))
    else (p.1, letters0, targets0)
  let scram := shuffle q.2.1
  (setSession s sid ⟨q.1, q.2.1, scram, q.2.2, []⟩,
   ⟨sid, q.1, scram, q.2.1, q.2.2.length⟩)

end Unscramble

namespace Unscramble

theorem charListLt_irrefl : ∀ xs : List Char, charListLt xs xs = false
  | [] => rfl
  | a :: as => by simp [charListLt, lt_irrefl, charListLt_irrefl as]

theorem charListLt_trans : ∀ xs ys zs : List Char, charListLt xs ys = true →
    charListLt ys zs = true → charListLt xs zs = true
  | [], [], _, h1, _ => by simp [charListLt] at h1
  | [], _ :: _, [], _, h2 => by simp [charListLt] at h2
  | [], _ :: _, _ :: _, _, _ => rfl
  | _ :: _, [], _, h1, _ => by simp [charListLt] at h1
  | _ :: _, _ :: _, [], _, h2 => by simp [charListLt] at h2
  | a :: as, b :: bs, c :: cs, h1, h2 => by
    by_cases hab : a < b
    · by_cases hbc : b < c
      · simp [charListLt, lt_trans hab hbc]
      · by_cases hcb : c < b
        · simp [charListLt, hbc, hcb] at h2
        · have hbc' : b = c := le_antisymm (le_of_not_lt hcb) (le_of_not_lt hbc)
          subst hbc'
          simp [charListLt, hab]
    · by_cases hba : b < a
      · simp [charListLt, hab, hba] at h1
      · have hab' : a = b := le_antisymm (le_of_not_lt hba) (le_of_not_lt hab)
        subst hab'
        simp only [charListLt, lt_irrefl, if_false] at h1
        by_cases hac : a < c
        · simp [charListLt, hac]
        · by_cases hca : c < a
          · simp [charListLt, hac, hca] at h2
          · have hac' : a = c := le_antisymm (le_of_not_lt hca) (le_of_not_lt hac)
            subst hac'
            simp only [charListLt, lt_irrefl, if_false] at h2 ⊢
            exact charListLt_trans as bs cs h1 h2

theorem charListLt_eq_of_not : ∀ xs ys : List Char, charListLt xs ys = false →
    charListLt ys xs = false → xs = ys
  | [], [], _, _ => rfl
  | [], _ :: _, h1, _ => by simp [charListLt] at h1
  | _ :: _, [], _, h2 => by simp [charListLt] at h2
  | a :: as, b :: bs, h1, h2 => by
    by_cases hab : a < b
    · simp [charListLt, hab] at h1
    · by_cases hba : b < a
      · simp [charListLt, hba] at h2
      · have hab' : a = b := le_antisymm (le_of_not_lt hba) (le_of_not_lt hab)
        subst hab'
        simp only [charListLt, lt_irrefl, if_false] at h1 h2
        rw [charListLt_eq_of_not as bs h1 h2]

instance : IsTotal String strLeProp := by
  constructor
  intro a b
  unfold strLeProp pyStrLe
  cases h : charListLt b.data a.data with
  | false => exact Or.inl rfl
  | true =>
    cases h2 : charListLt a.data b.data with
    | false => exact Or.inr rfl
    | true =>
      have := charListLt_trans _ _ _ h h2
      rw [charListLt_irrefl] at this
      cases this

instance : IsTrans String strLeProp := by
  constructor
  intro a b c hab hbc
  unfold strLeProp pyStrLe at hab hbc ⊢
  rw [Bool.not_eq_true'] at hab hbc ⊢
  cases hca : charListLt c.data a.data with
  | false => rfl
  | true =>
    cases hbc2 : charListLt b.data c.data with
    | true =>
      have := charListLt_trans _ _ _ hbc2 hca
      rw [this] at hab
      cases hab
    | false =>
      have hbceq := charListLt_eq_of_not _ _ hbc hbc2
      rw [hbceq, hab] at hca
      cases hca

theorem mem_five_iff {raw : List String} {zipf : String → ℚ} {mz : ℚ} {w : String} :
    w ∈ (build_five_index raw zipf mz).1 ↔
      w ∈ (raw.filter pyIsAlpha).map pyLower ∧ w.length = SEED_LEN ∧ mz ≤ zipf w := by
  simp [build_five_index, List.mem_filter, and_assoc]

theorem mem_bucket_iff {raw : List String} {zipf : String → ℚ} {mz : ℚ} {k w : String} :
    w ∈ (build_five_index raw zipf mz).2 k ↔
      w ∈ (build_five_index raw zipf mz).1 ∧ signature w = k := by
  constructor
  · intro h
    have h1 := (List.perm_insertionSort strLeProp _).mem_iff.mp h
    rw [List.mem_dedup, List.mem_filter] at h1
    exact ⟨h1.1, of_decide_eq_true h1.2⟩
  · intro ⟨h1, h2⟩
    refine (List.perm_insertionSort strLeProp _).mem_iff.mpr ?_
    rw [List.mem_dedup, List.mem_filter]
    exact ⟨h1, decide_eq_true h2⟩

/-- C2: every bucket of the index built by `build_five_index` holds only
words of length exactly 5 with zipf frequency at least the threshold; all
words in a bucket have the bucket's key as their sorted-letter signature;
and each bucket is deduplicated and sorted. -/
theorem index_bucket_invariant (raw : List String) (zipf : String → ℚ) (min_zipf : ℚ)
    (k : String) :
    ((build_five_index raw zipf min_zipf).2 k).Nodup ∧
    List.Sorted strLeProp ((build_five_index raw zipf min_zipf).2 k) ∧
    ∀ w ∈ (build_five_index raw zipf min_zipf).2 k,
      w.length = 5 ∧ min_zipf ≤ zipf w ∧ signature w = k := by
  refine ⟨?_, ?_, ?_⟩
  · exact ((List.perm_insertionSort strLeProp _).nodup_iff).mpr (List.nodup_dedup _)
  · exact List.sorted_insertionSort strLeProp _
  · intro w hw
    obtain ⟨h5, hsig⟩ := mem_bucket_iff.mp hw
    obtain ⟨-, hlen, hz⟩ := mem_five_iff.mp h5
    exact ⟨hlen, hz, hsig⟩

theorem data_isEmpty_false {sid : String} (h : sid ≠ "") : sid.data.isEmpty = false := by
  cases sid with
  | mk data =>
    cases data with
    | nil => exact absurd (by decide) h
    | cons c cs => rfl

theorem guess_eq_of_lookup (s : Sessions) (sid : String) (gs : GameState) (raw : JsonVal)
    (hsid : sid ≠ "") (hs : s sid = some gs) :
    guess s (some sid) raw =
      if guessOk gs (normGuess raw) && !(decide (normGuess raw ∈ gs.found)) then
        (setSession s sid { gs with found := gs.found ++ [normGuess raw] },
         .ok ⟨guessOk gs (normGuess raw), gs.found ++ [normGuess raw],
              (gs.targets.length : Int) - ((gs.found ++ [normGuess raw]).length : Int),
              decide ((gs.found ++ [normGuess raw]).length = gs.targets.length)⟩)
      else
        (s, .ok ⟨guessOk gs (normGuess raw), gs.found,
                 (gs.targets.length : Int) - (gs.found.length : Int),
                 decide (gs.found.length = gs.targets.length)⟩) := by
  unfold guess guessOk normGuess
  simp only [data_isEmpty_false hsid, hs, Bool.false_eq_true, if_false]

theorem guess_not_ok (s : Sessions) (sid : String) (gs : GameState) (raw : JsonVal)
    (hsid : sid ≠ "") (hs : s sid = some gs)
    (hok : guessOk gs (normGuess raw) = false) :
    guess s (some sid) raw =
      (s, .ok ⟨false, gs.found, (gs.targets.length : Int) - (gs.found.length : Int),
               decide (gs.found.length = gs.targets.length)⟩) := by
  rw [guess_eq_of_lookup s sid gs raw hsid hs, hok]
  simp

/-- Witness for C2 at a concrete vocabulary and bucket. -/
theorem index_bucket_invariant_witness :
    "rates" ∈ (build_five_index ["tears", "RATES", "stare", "aster", "xx"]
        (fun _ => 4) 3).2 "aerst" ∧
    ("rates".length = 5 ∧ (3 : ℚ) ≤ (fun _ => (4 : ℚ)) "rates" ∧ signature "rates" = "aerst") :=
  ⟨by decide,
   (index_bucket_invariant ["tears", "RATES", "stare", "aster", "xx"]
      (fun _ => 4) 3 "aerst").2.2 "rates" (by decide)⟩

/-- C3: a guess whose normalized form has length different from 5, or is
not one of the session's targets, returns `correct = false` and leaves the
session's found list (indeed the whole store) unchanged. -/
theorem guess_reject (s : Sessions) (sid : String) (gs : GameState) (raw : JsonVal)
    (hsid : sid ≠ "") (hs : s sid = some gs)
    (h : (normGuess raw).length ≠ 5 ∨ normGuess raw ∉ gs.targets) :
    (guess s (some sid) raw).1 = s ∧
    ∃ r : GuessResp, (guess s (some sid) raw).2 = .ok r ∧
      r.correct = false ∧ r.found = gs.found := by
  have hok : guessOk gs (normGuess raw) = false := by
    unfold guessOk
    rcases h with h | h
    · simp [SEED_LEN, h]
    · simp [h]
  rw [guess_not_ok s sid gs raw hsid hs hok]
  exact ⟨rfl, _, rfl, rfl, rfl⟩

/-- Witness for C3: guessing "rated" (right length, not an anagram) in a
concrete session. -/
theorem guess_reject_witness :
    (guess demoSessions (some "sid1") (.str "rated")).1 = demoSessions ∧
    ∃ r : GuessResp, (guess demoSessions (some "sid1") (.str "rated")).2 = .ok r ∧
      r.correct = false ∧ r.found = demoState.found :=
  guess_reject demoSessions "sid1" demoState (.str "rated") (by decide) (by decide)
    (Or.inr (by decide))

/-- C10: the guess handler is total over the guess field: any JSON value
there (missing, null, number, boolean, or string) is coerced with `str`,
lowercased and stripped without failing, and when the coerced value is
not one of the session's targets the handler returns a normal response
with `correct = false` and `found` unchanged. -/
theorem guess_total_any_json (s : Sessions) (sid : String) (gs : GameState) (v : JsonVal)
    (hsid : sid ≠ "") (hs : s sid = some gs)
    (hnt : pyStrip (pyLower (pyStr v)) ∉ gs.targets) :
    (guess s (some sid) v).1 = s ∧
    ∃ r : GuessResp, (guess s (some sid) v).2 = .ok r ∧
      r.correct = false ∧ r.found = gs.found := by
  have hok : guessOk gs (normGuess v) = false := by
    unfold guessOk normGuess
    simp [hnt]
  rw [guess_not_ok s sid gs v hsid hs hok]
  exact ⟨rfl, _, rfl, rfl, rfl⟩

/-- Witness for C10: a `null` guess coerces to "None", normalizes to
"none", and is handled as an ordinary incorrect guess. -/
theorem guess_total_any_json_witness :
    (guess demoSessions (some "sid1") .null).1 = demoSessions ∧
    ∃ r : GuessResp, (guess demoSessions (some "sid1") .null).2 = .ok r ∧
      r.correct = false ∧ r.found = demoState.found :=
  guess_total_any_json demoSessions "sid1" demoState .null (by decide) (by decide) (by decide)

/-- C5: an unknown or missing session identifier makes both the guess and
the state endpoints answer `400 {"error": "invalid session"}`, with the
session store untouched. -/
theorem invalid_session_both (s : Sessions) (sid : String) (raw : JsonVal)
    (hs : s sid = none) :
    guess s none raw = (s, .err 400 "invalid session") ∧
    guess s (some sid) raw = (s, .err 400 "invalid session") ∧
    state s sid = (s, .err 400 "invalid session") := by
  refine ⟨rfl, ?_, ?_⟩
  · unfold guess
    cases hE : sid.data.isEmpty
    · simp [hE, hs]
    · simp [hE]
  · unfold state
    rw [hs]

/-- Witness for C5 at a concrete store and the spec's "nonexistent" id. -/
theorem invalid_session_both_witness :
    guess demoSessions none (.str "rates") = (demoSessions, .err 400 "invalid session") ∧
    guess demoSessions (some "nonexistent") (.str "rates")
      = (demoSessions, .err 400 "invalid session") ∧
    state demoSessions "nonexistent" = (demoSessions, .err 400 "invalid session") :=
  invalid_session_both demoSessions "nonexistent" (.str "rates") (by decide)

/-- C9: the state endpoint is read-only and idempotent: it never alters
the session store, and a second call with no intervening guess returns
the identical response. -/
theorem state_readonly_idempotent (s : Sessions) (sid : String) :
    (state s sid).1 = s ∧
    (state (state s sid).1 sid).2 = (state s sid).2 := by
  have h1 : (state s sid).1 = s := by
    unfold state
    cases hE : s sid <;> simp
  exact ⟨h1, by rw [h1]⟩

/-- C1: guessing a target word not yet found (after normalization of the
raw guess) returns `correct = true` and appends exactly that word to
`found`; repeating the same guess returns `correct = true` again with
`found` unchanged. -/
theorem guess_new_target_then_repeat (s : Sessions) (sid : String) (gs : GameState)
    (w : String) (raw : JsonVal)
    (hsid : sid ≠ "") (hs : s sid = some gs)
    (hwf : ∀ t ∈ gs.targets, t.length = 5 ∧ signature t = gs.letters)
    (hw : w ∈ gs.targets) (hnew : w ∉ gs.found)
    (hraw : normGuess raw = w) :
    ∃ r1 : GuessResp, (guess s (some sid) raw).2 = .ok r1 ∧ r1.correct = true ∧
      r1.found = gs.found ++ [w] ∧ r1.found.length = gs.found.length + 1 ∧
      ∃ r2 : GuessResp, (guess (guess s (some sid) raw).1 (some sid) raw).2 = .ok r2 ∧
        r2.correct = true ∧ r2.found = gs.found ++ [w] := by
  have hok : guessOk gs w = true := by
    unfold guessOk
    simp [SEED_LEN, hw, (hwf w hw).1, (hwf w hw).2]
  have h1 := guess_eq_of_lookup s sid gs raw hsid hs
  rw [hraw, hok] at h1
  rw [if_pos (by simp [hnew])] at h1
  rw [h1]
  refine ⟨_, rfl, rfl, rfl, by simp, ?_⟩
  have hs2 : setSession s sid { gs with found := gs.found ++ [w] } sid
      = some { gs with found := gs.found ++ [w] } := by
    unfold setSession
    simp
  have h2 := guess_eq_of_lookup (setSession s sid { gs with found := gs.found ++ [w] })
    sid { gs with found := gs.found ++ [w] } raw hsid hs2
  have hok2 : guessOk { gs with found := gs.found ++ [w] } w = true := hok
  rw [hraw, hok2] at h2
  rw [if_neg (by simp)] at h2
  rw [h2]
  exact ⟨_, rfl, rfl, rfl⟩

/-- Witness for C1: guessing " RATES " (normalizes to "rates") in the
scenario session, then repeating it. -/
theorem guess_new_target_then_repeat_witness :
    ∃ r1 : GuessResp,
      (guess demoSessions (some "sid1") (.str " RATES ")).2 = .ok r1 ∧ r1.correct = true ∧
      r1.found = demoState.found ++ ["rates"] ∧
      r1.found.length = demoState.found.length + 1 ∧
      ∃ r2 : GuessResp,
        (guess (guess demoSessions (some "sid1") (.str " RATES ")).1
          (some "sid1") (.str " RATES ")).2 = .ok r2 ∧
        r2.correct = true ∧ r2.found = demoState.found ++ ["rates"] :=
  guess_new_target_then_repeat demoSessions "sid1" demoState "rates" (.str " RATES ")
    (by decide) (by decide) (by decide) (by decide) (by decide) (by decide)

/-- C4: every guess response satisfies `remaining = |targets| − |found|`
and `complete ↔ |found| = |targets|`; when `found` covers all of
`targets` (given the session's duplicate-freeness invariants), the
response has `complete = true` and `remaining = 0`. -/
theorem guess_progress_fields (s : Sessions) (sid : String) (gs : GameState) (raw : JsonVal)
    (r : GuessResp)
    (hsid : sid ≠ "") (hs : s sid = some gs)
    (hr : (guess s (some sid) raw).2 = .ok r) :
    r.remaining = (gs.targets.length : Int) - (r.found.length : Int) ∧
    r.complete = decide (r.found.length = gs.targets.length) ∧
    (gs.targets.Nodup → r.found.Nodup → r.found ⊆ gs.targets → gs.targets ⊆ r.found →
      r.complete = true ∧ r.remaining = 0) := by
  rw [guess_eq_of_lookup s sid gs raw hsid hs] at hr
  have main : r.remaining = (gs.targets.length : Int) - (r.found.length : Int) ∧
      r.complete = decide (r.found.length = gs.targets.length) := by
    by_cases hc : (guessOk gs (normGuess raw) && !decide (normGuess raw ∈ gs.found)) = true
    · rw [if_pos hc] at hr
      injection hr with hr
      rw [← hr]
      exact ⟨rfl, rfl⟩
    · rw [if_neg hc] at hr
      injection hr with hr
      rw [← hr]
      exact ⟨rfl, rfl⟩
  refine ⟨main.1, main.2, fun hnt hnf hft htf => ?_⟩
  have hlen : r.found.length = gs.targets.length :=
    le_antisymm (List.subperm_of_subset hnf hft).length_le
      (List.subperm_of_subset hnt htf).length_le
  constructor
  · rw [main.2, hlen]
    simp
  · rw [main.1, hlen]
    simp

/-- Witness for C4 at the scenario session after one correct guess. -/
theorem guess_progress_fields_witness :
    (⟨true, ["rates"], 3, false⟩ : GuessResp).remaining
        = (demoState.targets.length : Int) - ((["rates"] : List String).length : Int) ∧
    (⟨true, ["rates"], 3, false⟩ : GuessResp).complete
        = decide ((["rates"] : List String).length = demoState.targets.length) ∧
    (demoState.targets.Nodup → (["rates"] : List String).Nodup →
      (["rates"] : List String) ⊆ demoState.targets →
      demoState.targets ⊆ (["rates"] : List String) →
      (⟨true, ["rates"], 3, false⟩ : GuessResp).complete = true ∧
      (⟨true, ["rates"], 3, false⟩ : GuessResp).remaining = 0) :=
  guess_progress_fields demoSessions "sid1" demoState (.str "rates")
    ⟨true, ["rates"], 3, false⟩ (by decide) (by decide) (by decide)

/-- C8: `found` is a duplicate-free subset of `targets` preserving
discovery order, and only ever grows: session creation stores an empty
`found`, and a guess preserves the invariant, appending at most one new
target (the old `found` stays a prefix of the new one). -/
theorem found_invariant :
    (∀ (raw : List String) (zipf : String → ℚ) (min_zipf : ℚ) (disable_llm : Bool)
       (attempts : List LLMAttempt) (t1 w1 t2 w2 t3 w3 : Nat) (shuffle : String → String)
       (sid : String) (s : Sessions) (gs : GameState),
       (new_game raw zipf min_zipf disable_llm attempts t1 w1 t2 w2 t3 w3
           shuffle sid s).1 sid = some gs →
       gs.found = []) ∧
    (∀ (s : Sessions) (sid : String) (gs gs2 : GameState) (raw : JsonVal),
       sid ≠ "" → s sid = some gs → gs.found.Nodup → gs.found ⊆ gs.targets →
       (guess s (some sid) raw).1 sid = some gs2 →
       gs2.targets = gs.targets ∧ gs2.found.Nodup ∧ gs2.found ⊆ gs.targets ∧
       gs.found <+: gs2.found ∧ gs2.found.length ≤ gs.found.length + 1) := by
  constructor
  · intro raw zipf mz dis att t1 w1 t2 w2 t3 w3 sh sid s gs h
    unfold new_game setSession at h
    simp only [eq_self_iff_true, if_true, Option.some.injEq] at h
    rw [← h]
  · intro s sid gs gs2 raw hsid hs hnd hsub h2
    rw [guess_eq_of_lookup s sid gs raw hsid hs] at h2
    by_cases hc : (guessOk gs (normGuess raw) && !decide (normGuess raw ∈ gs.found)) = true
    · have hcParts := hc
      rw [Bool.and_eq_true] at hcParts
      obtain ⟨hokT, hnf⟩ := hcParts
      unfold guessOk at hokT
      rw [Bool.and_eq_true, Bool.and_eq_true] at hokT
      have hmem : normGuess raw ∈ gs.targets := of_decide_eq_true hokT.1.2
      have hnotf : normGuess raw ∉ gs.found := by
        rw [Bool.not_eq_true'] at hnf
        exact of_decide_eq_false hnf
      rw [if_pos hc] at h2
      simp only [setSession, eq_self_iff_true, if_true, Option.some.injEq] at h2
      rw [← h2]
      refine ⟨rfl, ?_, ?_, ?_, ?_⟩
      · refine List.Nodup.append hnd (List.nodup_singleton _) ?_
        intro x hx hmx
        rw [List.mem_singleton.mp hmx] at hx
        exact hnotf hx
      · intro x hx
        rcases List.mem_append.mp hx with hx | hx
        · exact hsub hx
        · rw [List.mem_singleton.mp hx]
          exact hmem
      · exact List.prefix_append _ _
      · simp
    · rw [if_neg hc] at h2
      replace h2 : s sid = some gs2 := h2
      rw [hs, Option.some.injEq] at h2
      rw [← h2]
      exact ⟨rfl, hnd, hsub, List.prefix_refl _, Nat.le_succ _⟩

/-- Witness for C8: a fresh session has empty `found`, and the scenario
session keeps the invariant through the guess "rates". -/
theorem found_invariant_witness :
    ((⟨"animals", "aerst", "aerst", ["aster"], []⟩ : GameState).found = []) ∧
    (demoStateAfter.targets = demoState.targets ∧ demoStateAfter.found.Nodup ∧
     demoStateAfter.found ⊆ demoState.targets ∧ demoState.found <+: demoStateAfter.found ∧
     demoStateAfter.found.length ≤ demoState.found.length + 1) :=
  ⟨found_invariant.1 ["aster"] (fun _ => 4) 3 true [] 0 0 0 0 0 0 id "s1" (fun _ => none)
     ⟨"animals", "aerst", "aerst", ["aster"], []⟩ (by decide),
   found_invariant.2 demoSessions "sid1" demoState demoStateAfter (.str "rates")
     (by decide) (by decide) (by decide) (List.nil_subset _) (by decide)⟩

/-- C6 is violated by the code. With the collaborator disabled and an
empty qualifying word list, `new_game` does fall back to the hardcoded
word "tiger" and does not fail — but the empty index has no bucket for
its signature "egirt", so the session is created with no targets at all
and the response's `answer_count` is 0, not at least 1 (this contradicts
the source's own comment `targets: ... (>=1)` at app.py line 49). -/
theorem new_game_empty_vocab_answer_count_zero :
    (new_game [] (fun _ => 4) 3 true [] 0 0 0 0 0 0 id "s1" (fun _ => none)).2.answer_count = 0 ∧
    (new_game [] (fun _ => 4) 3 true [] 0 0 0 0 0 0 id "s1"
        (fun _ => none)).2.letters = "egirt" :=
  ⟨by decide, by decide⟩

theorem char_toLower_eq (c : Char) :
    c.toLower = if c.toNat ≥ 65 ∧ c.toNat ≤ 90 then Char.ofNat (c.toNat + 32) else c := rfl

theorem char_toLower_toLower (c : Char) : c.toLower.toLower = c.toLower := by
  rw [char_toLower_eq c]
  by_cases h : c.toNat ≥ 65 ∧ c.toNat ≤ 90
  · rw [if_pos h]
    revert h
    generalize c.toNat = n
    intro h
    obtain ⟨h1, h2⟩ := h
    interval_cases n <;> decide
  · simp only [if_neg h]
    rw [char_toLower_eq c, if_neg h]

theorem alphaChar_toLower (c : Char) : alphaChar c.toLower = alphaChar c := by
  rw [char_toLower_eq c]
  by_cases h : c.toNat ≥ 65 ∧ c.toNat ≤ 90
  · rw [if_pos h]
    unfold alphaChar
    revert h
    generalize c.toNat = n
    intro h
    obtain ⟨h1, h2⟩ := h
    interval_cases n <;> decide
  · rw [if_neg h]

theorem pyLower_pyLower (s : String) : pyLower (pyLower s) = pyLower s := by
  show String.mk (List.map Char.toLower (List.map Char.toLower s.data)) = _
  rw [List.map_map]
  simp only [Function.comp_def, char_toLower_toLower]
  rfl

theorem all_alphaChar_map_toLower (l : List Char) :
    (l.map Char.toLower).all alphaChar = l.all alphaChar := by
  rw [List.all_map]
  simp only [Function.comp_def, alphaChar_toLower]

theorem pyIsAlpha_pyLower (s : String) : pyIsAlpha (pyLower s) = pyIsAlpha s := by
  show (!(List.map Char.toLower s.data).isEmpty
      && (List.map Char.toLower s.data).all alphaChar)
      = (!s.data.isEmpty && s.data.all alphaChar)
  rw [all_alphaChar_map_toLower]
  cases s.data with
  | nil => rfl
  | cons c cs => rfl

theorem five_word_valid {raw : List String} {zipf : String → ℚ} {mz : ℚ} {w : String}
    (h : w ∈ (build_five_index raw zipf mz).1) :
    pyIsAlpha w = true ∧ w.length = 5 ∧ pyLower w = w := by
  obtain ⟨hmem, hlen, -⟩ := mem_five_iff.mp h
  obtain ⟨u, hu, rfl⟩ := List.mem_map.mp hmem
  exact ⟨by rw [pyIsAlpha_pyLower]; exact (List.mem_filter.mp hu).2, hlen, pyLower_pyLower u⟩

theorem getD_mod_mem {l : List String} (h : l.isEmpty = false) (i : Nat) :
    l.getD (i % l.length) "tiger" ∈ l := by
  have hl : 0 < l.length := by
    cases l
    · simp at h
    · simp
  have hlt : i % l.length < l.length := Nat.mod_lt _ hl
  rw [List.getD_eq_getElem?_getD, List.getElem?_eq_getElem hlt, Option.getD_some]
  exact List.getElem_mem _

theorem fallback_word_valid (raw : List String) (zipf : String → ℚ) (mz : ℚ) (ti wi : Nat) :
    pyIsAlpha (fallback_topic_word (build_five_index raw zipf mz).1 ti wi).2 = true ∧
    (fallback_topic_word (build_five_index raw zipf mz).1 ti wi).2.length = 5 ∧
    pyLower (fallback_topic_word (build_five_index raw zipf mz).1 ti wi).2
      = (fallback_topic_word (build_five_index raw zipf mz).1 ti wi).2 := by
  unfold fallback_topic_word
  cases hE : (build_five_index raw zipf mz).1.isEmpty
  · simp only [hE, Bool.false_eq_true, if_false]
    exact five_word_valid (getD_mod_mem hE wi)
  · simp only [hE, if_true]
    exact ⟨by decide, by decide, by decide⟩

theorem firstValidAttempt_valid {zipf : String → ℚ} {mz : ℚ} :
    ∀ {l : List LLMAttempt} {t w : String},
      firstValidAttempt zipf mz l = some (t, w) →
      pyIsAlpha w = true ∧ w.length = 5 ∧ pyLower w = w
  | [], t, w, h => by simp [firstValidAttempt] at h
  | .failure :: rest, t, w, h =>
    firstValidAttempt_valid (by rw [firstValidAttempt] at h; exact h)
  | .parsed t0 w0 :: rest, t, w, h => by
    rw [firstValidAttempt] at h
    by_cases hv : (pyIsAlpha (pyLower (pyStrip w0))
        && decide ((pyLower (pyStrip w0)).length = SEED_LEN)
        && decide (mz ≤ zipf (pyLower (pyStrip w0)))) = true
    · rw [if_pos hv, Option.some.injEq, Prod.mk.injEq] at h
      rw [Bool.and_eq_true, Bool.and_eq_true] at hv
      rw [← h.2]
      exact ⟨hv.1.1, of_decide_eq_true hv.1.2, pyLower_pyLower (pyStrip w0)⟩
    · rw [if_neg hv] at h
      exact firstValidAttempt_valid h

/-- C7: whatever the outcomes of the external collaborator (errors,
malformed text, invalid words), the picker consumes at most 3 attempt
outcomes and returns a word that is purely alphabetic, exactly 5
characters and lowercase, silently degrading to the local fallback. -/
theorem picker_word_always_valid (raw : List String) (zipf : String → ℚ) (min_zipf : ℚ)
    (disable_llm : Bool) (attempts : List LLMAttempt) (ti wi : Nat)
    (fiveWords : List String)
    (hfive : fiveWords = (build_five_index raw zipf min_zipf).1) :
    pyIsAlpha
        (ask_tinyllama_topic_and_word disable_llm fiveWords zipf min_zipf attempts ti wi).2
      = true ∧
    (ask_tinyllama_topic_and_word disable_llm fiveWords zipf min_zipf attempts ti wi).2.length
      = 5 ∧
    pyLower (ask_tinyllama_topic_and_word disable_llm fiveWords zipf min_zipf attempts ti wi).2
      = (ask_tinyllama_topic_and_word disable_llm fiveWords zipf min_zipf attempts ti wi).2 := by
  subst hfive
  unfold ask_tinyllama_topic_and_word
  by_cases hd : (disable_llm || (build_five_index raw zipf min_zipf).1.isEmpty) = true
  · rw [if_pos hd]
    exact fallback_word_valid raw zipf min_zipf ti wi
  · rw [if_neg hd]
    cases hFV : firstValidAttempt zipf min_zipf (attempts.take 3) with
    | none => exact fallback_word_valid raw zipf min_zipf ti wi
    | some p =>
      obtain ⟨t, w⟩ := p
      exact firstValidAttempt_valid hFV

/-- Witness for C7: one malformed collaborator attempt ("PIANO!?" fails
validation), so the picker falls back to the five-letter vocabulary. -/
theorem picker_word_always_valid_witness :
    pyIsAlpha (ask_tinyllama_topic_and_word false ["hello", "tiger"] (fun _ => 4) 3
        [.parsed "m" "PIANO!?"] 0 0).2 = true ∧
    (ask_tinyllama_topic_and_word false ["hello", "tiger"] (fun _ => 4) 3
        [.parsed "m" "PIANO!?"] 0 0).2.length = 5 ∧
    pyLower (ask_tinyllama_topic_and_word false ["hello", "tiger"] (fun _ => 4) 3
        [.parsed "m" "PIANO!?"] 0 0).2
      = (ask_tinyllama_topic_and_word false ["hello", "tiger"] (fun _ => 4) 3
        [.parsed "m" "PIANO!?"] 0 0).2 :=
  picker_word_always_valid ["Hello", "tiger"] (fun _ => 4) 3 false
    [.parsed "m" "PIANO!?"] 0 0 ["hello", "tiger"] (by decide)

theorem bucket_word_wf {raw : List String} {zipf : String → ℚ} {mz : ℚ} {k w : String}
    (h : w ∈ (build_five_index raw zipf mz).2 k) : w.length = 5 ∧ signature w = k := by
  obtain ⟨h5, hsig⟩ := mem_bucket_iff.mp h
  exact ⟨(mem_five_iff.mp h5).2.1, hsig⟩

/-- Every session stored by `new_game` has well-formed targets: each is a
five-letter word whose signature is the session's letters (both branches
take the targets from the index bucket at the session's letters). -/
theorem new_game_session_wf (raw : List String) (zipf : String → ℚ) (min_zipf : ℚ)
    (disable_llm : Bool) (attempts : List LLMAttempt)
    (t1 w1 t2 w2 t3 w3 : Nat) (shuffle : String → String)
    (sid : String) (s : Sessions) (gs : GameState)
    (h : (new_game raw zipf min_zipf disable_llm attempts t1 w1 t2 w2 t3 w3
        shuffle sid s).1 sid = some gs) :
    ∀ t ∈ gs.targets, t.length = 5 ∧ signature t = gs.letters := by
  unfold new_game setSession at h
  simp only [eq_self_iff_true, if_true, Option.some.injEq] at h
  rw [← h]
  dsimp only
  split <;> split <;> exact fun t ht => bucket_word_wf ht

/-- The code's fallback guarantee does hold away from the empty-vocabulary
edge case: with the collaborator disabled and a non-empty qualifying word
list, `new_game` reports at least one target. -/
theorem new_game_disabled_nonempty_count_pos (raw : List String) (zipf : String → ℚ)
    (min_zipf : ℚ) (attempts : List LLMAttempt)
    (t1 w1 t2 w2 t3 w3 : Nat) (shuffle : String → String) (sid : String) (s : Sessions)
    (h : (build_five_index raw zipf min_zipf).1.isEmpty = false) :
    1 ≤ (new_game raw zipf min_zipf true attempts t1 w1 t2 w2 t3 w3
        shuffle sid s).2.answer_count := by
  have hask : ask_tinyllama_topic_and_word true (build_five_index raw zipf min_zipf).1
      zipf min_zipf attempts t1 w1
      = fallback_topic_word (build_five_index raw zipf min_zipf).1 t1 w1 := by
    unfold ask_tinyllama_topic_and_word
    rw [Bool.true_or, if_pos rfl]
  have hfb : fallback_topic_word (build_five_index raw zipf min_zipf).1 t1 w1
      = (TOPIC_POOL.getD (t1 % TOPIC_POOL.length) "animals",
         (build_five_index raw zipf min_zipf).1.getD
           (w1 % (build_five_index raw zipf min_zipf).1.length) "tiger") := by
    unfold fallback_topic_word
    rw [h]
    simp
  have hmem : (build_five_index raw zipf min_zipf).1.getD
      (w1 % (build_five_index raw zipf min_zipf).1.length) "tiger"
      ∈ (build_five_index raw zipf min_zipf).1 := getD_mod_mem h w1
  have hv := five_word_valid hmem
  have hmemB : (build_five_index raw zipf min_zipf).1.getD
      (w1 % (build_five_index raw zipf min_zipf).1.length) "tiger"
      ∈ (build_five_index raw zipf min_zipf).2
          (signature ((build_five_index raw zipf min_zipf).1.getD
            (w1 % (build_five_index raw zipf min_zipf).1.length) "tiger")) :=
    mem_bucket_iff.mpr ⟨hmem, rfl⟩
  unfold new_game
  dsimp only
  rw [hask, hfb]
  set W := (build_five_index raw zipf min_zipf).1.getD
    (w1 % (build_five_index raw zipf min_zipf).1.length) "tiger" with hW
  rw [if_neg (show ¬((TOPIC_POOL.getD (t1 % TOPIC_POOL.length) "animals", W).2.length
    ≠ SEED_LEN) from fun hne => hne hv.2.1)]
  rw [if_neg ?hne]
  case hne =>
    intro hE
    rw [List.isEmpty_iff] at hE
    unfold five_letter_anagrams at hE
    rw [hE] at hmemB
    cases hmemB
  exact List.length_pos_of_mem hmemB
